import Mathlib

/-!
Verification of the TallyPrime Clean Slate Inventory System against its
specification.

The repository ships the durable-store schema (docs/supabase-schema.sql),
the read-side mobile app (mobile-app/src), and operational documentation;
the Python sync engine itself (python-sync/tally_sync.py) is not among the
published sources, so the engine components (connector aggregation, clean
slate calculation, idempotent publishing) are modelled from the spec and
from the worked examples in the repository's documentation, as marked on
each definition.  Quantities are integers of whole units in the engine
model (the store column type DECIMAL(15,3) is analysed separately via
rationals), timestamps are naturals.
-/

/-! ## Source Connector and Multi-Source Aggregator (modelled) -/

/-- Modelled from the spec: the outcome of querying one Source Connector
(one TallyPrime company) for movement rows, since tally_sync.py is not in
the published sources.  `rows` is `none` when the connector failed, and
otherwise the fetched `(item_code, quantity_delta)` rows. -/
structure ConnectorResult where
  company : String
  rows : Option (List (String × ℤ))
deriving DecidableEq

/-- Modelled from the spec: the net quantity delta contributed by one
source's fetched rows for one item code; rows for other items are ignored,
so an item absent from the rows contributes zero. -/
def sumDeltasFor (code : String) (rows : List (String × ℤ)) : ℤ :=
  (rows.filter (fun r => r.1 == code)).foldr (fun r acc => r.2 + acc) 0

/-- Modelled from the spec: the Multi-Source Aggregator's per-item delta.
Deltas are summed per item_code across all successful connectors; a failed
connector contributes nothing. -/
def aggregateDelta (results : List ConnectorResult) (code : String) : ℤ :=
  results.foldr
    (fun r acc =>
      match r.rows with
      | some rows => sumDeltasFor code rows + acc
      | none => acc)
    0

/-- Per-company movement delta as documented in the multi-company setup
guide's Clean Slate Calculation example: closing balance minus opening
balance over the movement window. -/
def companyDelta (opening closing : ℤ) : ℤ := closing - opening

/-- Net consumption over the same window: opening balance minus closing
balance (items sold/used in excess of items received). -/
def netConsumption (opening closing : ℤ) : ℤ := opening - closing

/-! ## Clean-Slate Calculator (modelled) -/

/-- Item master attributes carried by a source's stock item rows. -/
structure ItemAttrs where
  item_name : String
  category : String
  unit : String
deriving DecidableEq

/-- One computed record handed to the Publisher: item attributes plus the
computed stock level. -/
structure PubRecord where
  item_code : String
  item_name : String
  category : String
  unit : String
  current_stock : ℤ
  physical_baseline : ℤ
  tally_delta : ℤ
deriving DecidableEq

/-- Quantity lookup in an association list keyed by item code, defaulting
to zero for an absent item. -/
def lookupQty (m : List (String × ℤ)) (code : String) : ℤ :=
  match m.find? (fun p => p.1 == code) with
  | some p => p.2
  | none => 0

/-- Attribute lookup keyed by item code; an item with no master row gets
its code as name and the schema defaults category General and unit Nos. -/
def lookupAttrs (m : List (String × ItemAttrs)) (code : String) : ItemAttrs :=
  match m.find? (fun p => p.1 == code) with
  | some p => p.2
  | none => { item_name := code, category := "General", unit := "Nos" }

/-- The clean-slate record for one item code: its attributes, the
baseline count (0 when absent), the aggregated delta (0 when absent), and
current_stock = physical_baseline + tally_delta. -/
def cleanSlateRecord (attrs : List (String × ItemAttrs))
    (baseline deltas : List (String × ℤ)) (code : String) : PubRecord :=
  { item_code := code
    item_name := (lookupAttrs attrs code).item_name
    category := (lookupAttrs attrs code).category
    unit := (lookupAttrs attrs code).unit
    current_stock := lookupQty baseline code + lookupQty deltas code
    physical_baseline := lookupQty baseline code
    tally_delta := lookupQty deltas code }

/-- Modelled from the spec: the Clean-Slate Calculator.  Every item code
seen in any source's stock master, in the physical baseline, or in the
aggregated deltas gets one record, with
current_stock = physical_baseline + tally_delta, the baseline count
defaulting to 0 for items with no baseline entry and the delta defaulting
to 0 for items with no movement. -/
def computeCleanSlate (attrs : List (String × ItemAttrs))
    (baseline deltas : List (String × ℤ)) : List PubRecord :=
  ((attrs.map Prod.fst ++ baseline.map Prod.fst ++ deltas.map Prod.fst).dedup).map
    (cleanSlateRecord attrs baseline deltas)

/-! ## Durable store (docs/supabase-schema.sql) -/

/-- Row of the items master table: surrogate id, unique item_code, name,
category (default General), unit (default Nos), created_at and the
trigger-maintained updated_at. -/
structure ItemRow where
  id : ℕ
  item_code : String
  item_name : String
  category : String
  unit : String
  created_at : ℕ
  updated_at : ℕ
deriving DecidableEq

/-- Row of the stock_levels table: surrogate id, nullable item_id
referencing items(id) with ON DELETE CASCADE and UNIQUE(item_id), the
three DECIMAL(15,3) quantities, last_sync and sync_source. -/
structure StockRow where
  id : ℕ
  item_id : Option ℕ
  current_stock : ℤ
  physical_baseline : ℤ
  tally_delta : ℤ
  last_sync : ℕ
  sync_source : String
deriving DecidableEq

/-- Row of the sync_logs table: sync_timestamp, items_processed, status
(constrained by a CHECK), nullable error_message and duration_seconds. -/
structure SyncLogRow where
  sync_timestamp : ℕ
  items_processed : ℤ
  status : String
  error_message : Option String
  duration_seconds : Option ℤ
deriving DecidableEq

/-- The durable store state touched by the engine: the items and
stock_levels tables plus a counter standing in for surrogate id
generation. -/
structure DB where
  items : List ItemRow
  stocks : List StockRow
  nextId : ℕ
deriving DecidableEq

/-- Referential integrity of one stock row: a non-null item_id must name
an existing item (the FOREIGN KEY of stock_levels.item_id). -/
def refOk (items : List ItemRow) (s : StockRow) : Bool :=
  match s.item_id with
  | some iid => items.any (fun i => i.id == iid)
  | none => true

/-- Store well-formedness: the UNIQUE constraints of the schema (item_code
on items, item_id on stock_levels, primary-key ids on items), the foreign
key from stock_levels to items, and freshness of the id counter. -/
def wf (db : DB) : Prop :=
  (db.items.map ItemRow.item_code).Nodup ∧
  (db.items.map ItemRow.id).Nodup ∧
  (db.stocks.filterMap StockRow.item_id).Nodup ∧
  (∀ s ∈ db.stocks, refOk db.items s = true) ∧
  (∀ i ∈ db.items, i.id < db.nextId)

instance (db : DB) : Decidable (wf db) := by
  unfold wf; infer_instance

/-! ## Publisher (modelled) -/

/-- Update applied to an items row by an upsert keyed on item_code: the
matching row takes the incoming name, category and unit, and the BEFORE
UPDATE trigger stamps updated_at; other rows are untouched. -/
def updateItemRow (t : ℕ) (r : PubRecord) (j : ItemRow) : ItemRow :=
  if j.item_code == r.item_code then
    { j with item_name := r.item_name, category := r.category,
             unit := r.unit, updated_at := t }
  else j

/-- Modelled from the spec: the Publisher's item upsert keyed by
item_code (never insert-only).  Returns the new store and the surrogate id
of the row owning the code. -/
def upsertItem (t : ℕ) (db : DB) (r : PubRecord) : DB × ℕ :=
  match db.items.find? (fun i => i.item_code == r.item_code) with
  | some i => ({ db with items := db.items.map (updateItemRow t r) }, i.id)
  | none =>
      ({ db with
          items := db.items ++
            [{ id := db.nextId, item_code := r.item_code,
               item_name := r.item_name, category := r.category,
               unit := r.unit, created_at := t, updated_at := t }]
          nextId := db.nextId + 1 }, db.nextId)

/-- Update applied to a stock_levels row by an upsert keyed on item_id:
the matching row takes the computed quantities, last_sync is stamped with
the run time and sync_source with tally_sync; other rows are untouched. -/
def updateStockRow (t : ℕ) (iid : ℕ) (r : PubRecord) (s : StockRow) : StockRow :=
  if s.item_id == some iid then
    { s with current_stock := r.current_stock,
             physical_baseline := r.physical_baseline,
             tally_delta := r.tally_delta,
             last_sync := t, sync_source := "tally_sync" }
  else s

/-- Modelled from the spec: the Publisher's stock level upsert keyed by
item_id (never insert-only). -/
def upsertStock (t : ℕ) (iid : ℕ) (r : PubRecord) (db : DB) : DB :=
  match db.stocks.find? (fun s => s.item_id == some iid) with
  | some _ => { db with stocks := db.stocks.map (updateStockRow t iid r) }
  | none =>
      { db with
          stocks := db.stocks ++
            [{ id := db.nextId, item_id := some iid,
               current_stock := r.current_stock,
               physical_baseline := r.physical_baseline,
               tally_delta := r.tally_delta,
               last_sync := t, sync_source := "tally_sync" }]
          nextId := db.nextId + 1 }

/-- Modelled from the spec: publishing one computed record upserts the
item by item_code and then the stock level by the owning item's id. -/
def publishOne (t : ℕ) (db : DB) (r : PubRecord) : DB :=
  upsertStock t (upsertItem t db r).2 r (upsertItem t db r).1

/-- Modelled from the spec: publishing a whole computed run, record by
record. -/
def publishAll (t : ℕ) (recs : List PubRecord) (db : DB) : DB :=
  recs.foldl (publishOne t) db

/-- ON DELETE CASCADE: removing an items row also removes every
stock_levels row referencing it. -/
def deleteItemCascade (db : DB) (iid : ℕ) : DB :=
  { db with
      items := db.items.filter (fun i => !(i.id == iid))
      stocks := db.stocks.filter (fun s => !(s.item_id == some iid)) }

/-! ## Read side: inventory_view, get_latest_sync_timestamp, sync_logs -/

/-- Row shape of inventory_view: the item columns together with the
stock_levels data columns. -/
structure ViewRow where
  id : ℕ
  item_code : String
  item_name : String
  category : String
  unit : String
  current_stock : ℤ
  physical_baseline : ℤ
  tally_delta : ℤ
  last_sync : ℕ
  sync_source : String
deriving DecidableEq

/-- One left-join row of inventory_view for an item: the stock columns
when a stock_levels row references the item, and otherwise the COALESCE
defaults 0, 0, 0, the item's created_at and the source tag manual. -/
def viewRowFor (db : DB) (i : ItemRow) : ViewRow :=
  match db.stocks.find? (fun s => s.item_id == some i.id) with
  | some s =>
      { id := i.id, item_code := i.item_code, item_name := i.item_name,
        category := i.category, unit := i.unit,
        current_stock := s.current_stock,
        physical_baseline := s.physical_baseline,
        tally_delta := s.tally_delta,
        last_sync := s.last_sync, sync_source := s.sync_source }
  | none =>
      { id := i.id, item_code := i.item_code, item_name := i.item_name,
        category := i.category, unit := i.unit,
        current_stock := 0, physical_baseline := 0, tally_delta := 0,
        last_sync := i.created_at, sync_source := "manual" }

/-- ORDER BY item_name comparison of the view. -/
def viewOrder (a b : ViewRow) : Bool := decide (a.item_name ≤ b.item_name)

/-- The inventory_view of docs/supabase-schema.sql: items LEFT JOIN
stock_levels on id = item_id with COALESCE defaults, ORDER BY
item_name. -/
def inventory_view (db : DB) : List ViewRow :=
  (db.items.map (viewRowFor db)).mergeSort viewOrder

/-- The get_latest_sync_timestamp function of the schema: MAX(last_sync)
over the stock_levels rows whose sync_source equals tally_sync, NULL when
there is no such row. -/
def get_latest_sync_timestamp (db : DB) : Option ℕ :=
  ((db.stocks.filter (fun s => s.sync_source == "tally_sync")).map
    StockRow.last_sync).max?

/-- The CHECK constraint of sync_logs.status. -/
def syncLogStatusOk (status : String) : Bool :=
  status == "SUCCESS" || status == "FAILED" || status == "ERROR"

/-- Insert into sync_logs: appends the row when the status CHECK passes
and is rejected by the store otherwise. -/
def insertSyncLog (logs : List SyncLogRow) (r : SyncLogRow) :
    Option (List SyncLogRow) :=
  if syncLogStatusOk r.status then some (logs ++ [r]) else none

/-! ## Read-side client (mobile-app/src) -/

/-- A queryable surface of the durable store, as seen from the client. -/
inductive ReadSurface where
  | view : String → ReadSurface
  | table : String → ReadSurface
  | rpc : String → ReadSurface
  | realtime : String → ReadSurface
deriving DecidableEq

/-- Transcribed from mobile-app/src/hooks/useInventory.ts: fetchItems
selects from inventory_view and calls the get_latest_sync_timestamp RPC,
and the effect subscribes to postgres_changes on the stock_levels
table. -/
def useInventoryReadSurfaces : List ReadSurface :=
  [ReadSurface.view ("inventory_view"),
   ReadSurface.rpc ("get_latest_sync_timestamp"),
   ReadSurface.realtime ("stock_levels")]

/-- Transcribed from useInventory.ts: lastSync starts null and is set only
when the RPC returns a non-null timestamp. -/
def useInventoryLastSync (db : DB) : Option ℕ :=
  match get_latest_sync_timestamp db with
  | some t => some t
  | none => none

/-- Transcribed from InventoryList.tsx: formatLastSync renders Never for a
null date and otherwise buckets the elapsed time (times in
milliseconds, floor division as in Math.floor). -/
def formatLastSync (now : ℤ) (date : Option ℤ) : String :=
  match date with
  | none => "Never"
  | some d =>
      let diffMs := now - d
      let diffMins := Int.fdiv diffMs 60000
      let diffHours := Int.fdiv diffMins 60
      let diffDays := Int.fdiv diffHours 24
      if diffMins < 1 then ("Just now")
      else if diffMins < 60 then toString diffMins ++ "m ago"
      else if diffHours < 24 then toString diffHours ++ "h ago"
      else toString diffDays ++ "d ago"

/-- The last-sync label the app displays for a given store state. -/
def displayedLastSync (now : ℤ) (db : DB) : String :=
  formatLastSync now ((useInventoryLastSync db).map Int.ofNat)

/-- Column list of the stock_levels table in docs/supabase-schema.sql. -/
def stockLevelsColumns : List String :=
  ["id", "item_id", "current_stock", "physical_baseline", "tally_delta",
   "last_sync", "sync_source"]

/-- Column list of inventory_view in docs/supabase-schema.sql. -/
def inventoryViewColumns : List String :=
  ["id", "item_code", "item_name", "category", "unit", "current_stock",
   "physical_baseline", "tally_delta", "last_sync", "sync_source"]

/-! ## Numeric representations (C4) -/

/-- Reading of a stored DECIMAL(15,3) cell as an exact rational: the cell
holds an integer count of thousandths. -/
def toQty (k : ℤ) : ℚ := (k : ℚ) / 1000

/-- Value set of the DECIMAL(15,3) columns (precision bound dropped, which
only enlarges the set): exact multiples of one thousandth. -/
def isDecimal3 (q : ℚ) : Prop := ∃ k : ℤ, q = (k : ℚ) / 1000

/-- Values exactly representable by the client's number type (IEEE-754
binary64): m times a power of two.  Mantissa and exponent bounds are
dropped, which only enlarges the set, so non-membership here implies
non-representability in an actual double. -/
def isJsFloatValue (q : ℚ) : Prop := ∃ (m e : ℤ), q = (m : ℚ) * (2 : ℚ) ^ e

/-! ## General helper lemmas -/

lemma map_eq_self_of {α : Type _} {f : α → α} {l : List α}
    (h : ∀ x ∈ l, f x = x) : l.map f = l := by
  induction l with
  | nil => rfl
  | cons a l ih =>
      simp only [List.map_cons]
      rw [h a (by simp), ih (fun x hx => h x (by simp [hx]))]

lemma find?_eq_some_of_unique {α : Type _} {p : α → Bool} {l : List α} {a : α}
    (ha : a ∈ l) (hpa : p a = true)
    (huniq : ∀ x ∈ l, p x = true → x = a) : l.find? p = some a := by
  induction l with
  | nil => cases ha
  | cons b l ih =>
      by_cases hb : p b = true
      · rw [List.find?_cons_of_pos _ hb, huniq b (by simp) hb]
      · rw [List.find?_cons_of_neg _ hb]
        rcases List.mem_cons.mp ha with rfl | ha'
        · exact absurd hpa hb
        · exact ih ha' (fun x hx hpx => huniq x (by simp [hx]) hpx)

lemma nodup_filterMap_unique {α β : Type _} {f : α → Option β} {l : List α}
    (h : (l.filterMap f).Nodup) {x y : α} (hx : x ∈ l) (hy : y ∈ l)
    {v : β} (hxv : f x = some v) (hyv : f y = some v) : x = y := by
  induction l with
  | nil => cases hx
  | cons a l ih =>
      rcases List.mem_cons.mp hx with rfl | hx' <;>
        rcases List.mem_cons.mp hy with rfl | hy'
      · rfl
      · exfalso
        have hv : v ∈ l.filterMap f := List.mem_filterMap.mpr ⟨y, hy', hyv⟩
        simp only [List.filterMap_cons, hxv] at h
        exact (List.nodup_cons.mp h).1 hv
      · exfalso
        have hv : v ∈ l.filterMap f := List.mem_filterMap.mpr ⟨x, hx', hxv⟩
        simp only [List.filterMap_cons, hyv] at h
        exact (List.nodup_cons.mp h).1 hv
      · refine ih ?_ hx' hy'
        cases hfa : f a with
        | none => simpa only [List.filterMap_cons, hfa] using h
        | some w =>
            simp only [List.filterMap_cons, hfa] at h
            exact (List.nodup_cons.mp h).2

lemma aggregateDelta_eq_sum (results : List ConnectorResult) (code : String) :
    aggregateDelta results code
      = ((results.filterMap ConnectorResult.rows).map (sumDeltasFor code)).sum := by
  induction results with
  | nil => rfl
  | cons r rest ih =>
      have step : aggregateDelta (r :: rest) code
          = (match r.rows with
             | some rows => sumDeltasFor code rows + aggregateDelta rest code
             | none => aggregateDelta rest code) := rfl
      cases hr : r.rows with
      | none =>
          rw [step, hr]
          simp only [List.filterMap_cons, hr, ih]
      | some rows =>
          rw [step, hr]
          simp only [List.filterMap_cons, hr, List.map_cons, List.sum_cons, ih]

lemma sumDeltasFor_of_not_mem {code : String} {rows : List (String × ℤ)}
    (h : code ∉ rows.map Prod.fst) : sumDeltasFor code rows = 0 := by
  unfold sumDeltasFor
  have hnil : rows.filter (fun r => r.1 == code) = [] := by
    rw [List.filter_eq_nil_iff]
    intro r hr hrp
    exact h (List.mem_map.mpr ⟨r, hr, by simpa using hrp⟩)
  rw [hnil]
  rfl

/-! ## C2: aggregation sums deltas per item over successful connectors -/

/-- C2: for every item code, the aggregated delta equals the sum of that
item's quantity deltas over all successfully queried connectors, an item
absent from a given source contributing zero; in particular BRAKE001 with
+25 in company A and +20 in company B aggregates to delta +45 before the
baseline is applied. -/
theorem aggregated_delta_is_sum_over_connectors :
    (∀ (results : List ConnectorResult) (code : String),
      aggregateDelta results code
        = ((results.filterMap ConnectorResult.rows).map (sumDeltasFor code)).sum) ∧
    (∀ (code : String) (rows : List (String × ℤ)),
      code ∉ rows.map Prod.fst → sumDeltasFor code rows = 0) ∧
    aggregateDelta
      [{ company := "Company A", rows := some [("BRAKE001", 25)] },
       { company := "Company B", rows := some [("BRAKE001", 20)] }]
      "BRAKE001" = 45 :=
  ⟨aggregateDelta_eq_sum, fun _ _ h => sumDeltasFor_of_not_mem h, by decide⟩

/-- Witness: the absent-item hypothesis of C2 discharged at a concrete
source that does not carry BRAKE001. -/
theorem aggregated_delta_is_sum_over_connectors_witness :
    "BRAKE001" ∉ ([("FILTER002", (7 : ℤ))].map Prod.fst) ∧
    sumDeltasFor ("BRAKE001") [("FILTER002", (7 : ℤ))] = 0 :=
  ⟨by decide,
   aggregated_delta_is_sum_over_connectors.2.1 ("BRAKE001")
     [("FILTER002", (7 : ℤ))] (by decide)⟩

/-! ## C5: sign convention of the movement delta -/

/-- C5 counterexample: with the documented per-company delta
closing − opening, a window going from opening 45 to closing 50 has
positive delta yet no positive net consumption, so a positive delta does
not mean net consumption. -/
theorem positive_delta_is_receipt_not_consumption :
    0 < companyDelta 45 50 ∧ ¬ 0 < netConsumption 45 50 := by decide

/-- C5 amended: the Movement Delta is the signed net quantity change
summed across all sources in the window, but the sign convention is
receipt-positive: the per-company delta is closing − opening, the negation
of net consumption, so net consumption appears as a negative delta; the
documented example combines company deltas −5 and +2 into −3 and yields
clean slate 50 + (−3) = 47. -/
theorem movement_delta_sign_convention :
    (∀ (results : List ConnectorResult) (code : String),
      aggregateDelta results code
        = ((results.filterMap ConnectorResult.rows).map (sumDeltasFor code)).sum) ∧
    (∀ opening closing : ℤ,
      companyDelta opening closing = -(netConsumption opening closing)) ∧
    (∀ opening closing : ℤ,
      0 < companyDelta opening closing ↔ netConsumption opening closing < 0) ∧
    (companyDelta 50 45 + companyDelta 45 47 = -3 ∧
      50 + (companyDelta 50 45 + companyDelta 45 47) = 47) := by
  refine ⟨aggregateDelta_eq_sum, ?_, ?_, by decide⟩
  · intro o c
    unfold companyDelta netConsumption
    ring
  · intro o c
    unfold companyDelta netConsumption
    omega

/-! ## C4: decimal storage versus the client's float representation -/

/-- C4 counterexample: one tenth is a value of the stored DECIMAL(15,3)
columns but equals no m·2^e, hence is not exactly representable by the
read-side client's IEEE-754 number type, so the quantities are not
decimal-exact end to end including the values exposed to the client. -/
theorem decimal_value_not_float_exact :
    isDecimal3 ((1 : ℚ) / 10) ∧ ¬ isJsFloatValue ((1 : ℚ) / 10) := by
  constructor
  · exact ⟨100, by norm_num⟩
  · rintro ⟨m, e, h⟩
    rcases e with n | n
    · rw [Int.ofNat_eq_coe, zpow_natCast] at h
      have h10 : (m : ℚ) * 2 ^ n * 10 = 1 := by
        rw [← h]
        norm_num
      have hz : m * 2 ^ n * 10 = 1 := by exact_mod_cast h10
      have h2 : (2 : ℤ) ∣ 1 := ⟨m * 2 ^ n * 5, by linarith⟩
      norm_num at h2
    · rw [zpow_negSucc] at h
      have h2 : (2 : ℚ) ^ (n + 1) = 10 * m := by
        field_simp at h
        linarith
      have hz : (2 : ℤ) ^ (n + 1) = 10 * m := by exact_mod_cast h2
      have h5 : (5 : ℤ) ∣ 2 ^ (n + 1) := ⟨2 * m, by linarith⟩
      have h5n : (5 : ℕ) ∣ 2 ^ (n + 1) := by exact_mod_cast h5
      have hdvd := Nat.Prime.dvd_of_dvd_pow (p := 5) (by norm_num) h5n
      norm_num at hdvd

/-- C4 amended: within the durable store the quantities are exact
multiples of 0.001 (DECIMAL(15,3)) and the arithmetic combining them is
exact: the rational reading of stored cells is additive and a sum of two
stored quantities is again exactly a stored quantity. -/
theorem decimal_storage_exact :
    (∀ k : ℤ, isDecimal3 (toQty k)) ∧
    (∀ a b : ℤ, toQty (a + b) = toQty a + toQty b) ∧
    (∀ a b : ℤ, ∃ c : ℤ, toQty a + toQty b = toQty c) := by
  refine ⟨fun k => ⟨k, rfl⟩, ?_, ?_⟩
  · intro a b
    unfold toQty
    push_cast
    ring
  · intro a b
    refine ⟨a + b, ?_⟩
    unfold toQty
    push_cast
    ring

/-! ## C8: sync_logs status CHECK constraint -/

/-- C8: every stored sync_logs record carries the declared fields with a
status constrained to SUCCESS, FAILED or ERROR: an insert into a table of
checked rows leaves only rows with those statuses, and an insert carrying
any other status is rejected. -/
theorem sync_log_status_check
    (logs logs' : List SyncLogRow) (r : SyncLogRow) :
    ((∀ x ∈ logs, syncLogStatusOk x.status = true) →
      insertSyncLog logs r = some logs' →
      ∀ x ∈ logs',
        x.status = "SUCCESS" ∨ x.status = "FAILED" ∨ x.status = "ERROR") ∧
    (syncLogStatusOk r.status = false → insertSyncLog logs r = none) := by
  constructor
  · intro hall hins x hx
    unfold insertSyncLog at hins
    by_cases hr : syncLogStatusOk r.status = true
    · rw [if_pos hr] at hins
      injection hins with hins'
      subst hins'
      rcases List.mem_append.mp hx with hx' | hx'
      · have hok := hall x hx'
        simpa [syncLogStatusOk, or_assoc] using hok
      · have hxr : x = r := by simpa using hx'
        subst hxr
        simpa [syncLogStatusOk, or_assoc] using hr
    · rw [if_neg hr] at hins
      cases hins
  · intro hr
    unfold insertSyncLog
    rw [if_neg (by simp [hr])]

/-- Witness: the C8 insert applied to the empty log table and a concrete
SUCCESS record. -/
theorem sync_log_status_check_witness :
    (∀ x ∈ ([] : List SyncLogRow), syncLogStatusOk x.status = true) ∧
    (∀ x ∈ [({ sync_timestamp := 0, items_processed := 5,
               status := "SUCCESS", error_message := none,
               duration_seconds := some 12 } : SyncLogRow)],
      x.status = "SUCCESS" ∨ x.status = "FAILED" ∨ x.status = "ERROR") :=
  ⟨by decide,
   (sync_log_status_check []
      [({ sync_timestamp := 0, items_processed := 5,
          status := "SUCCESS", error_message := none,
          duration_seconds := some 12 } : SyncLogRow)]
      ({ sync_timestamp := 0, items_processed := 5,
         status := "SUCCESS", error_message := none,
         duration_seconds := some 12 } : SyncLogRow)).1
     (by decide) (by decide)⟩

/-! ## C3: the read-side query surface -/

/-- C3 counterexample: inventory_view does not expose the stock_levels
column item_id, and the read-side hook queries the
get_latest_sync_timestamp RPC, a durable-store surface that is not the
view (it also subscribes to changes on the stock_levels table). -/
theorem read_surface_beyond_view :
    ("item_id" ∈ stockLevelsColumns ∧ "item_id" ∉ inventoryViewColumns) ∧
    (ReadSurface.rpc ("get_latest_sync_timestamp") ∈ useInventoryReadSurfaces ∧
      ∀ name : String,
        ReadSurface.rpc ("get_latest_sync_timestamp") ≠ ReadSurface.view name) :=
  ⟨⟨by decide, by decide⟩,
   ⟨by decide, fun _ h => ReadSurface.noConfusion h⟩⟩

lemma viewOrder_trans : ∀ a b c : ViewRow,
    viewOrder a b = true → viewOrder b c = true → viewOrder a c = true := by
  intro a b c hab hbc
  simp only [viewOrder, decide_eq_true_eq] at hab hbc ⊢
  exact le_trans hab hbc

lemma viewOrder_total : ∀ a b : ViewRow,
    (viewOrder a b || viewOrder b a) = true := by
  intro a b
  rcases le_total a.item_name b.item_name with h | h <;>
    simp [viewOrder, h]

/-- C3 amended: inventory rows are fetched only from inventory_view, whose
rows are ordered by item_name and expose the stock_levels data columns
(current_stock, physical_baseline, tally_delta, last_sync, sync_source)
alongside the item columns (but not item_id); besides that view, the
read-side hook also calls the get_latest_sync_timestamp RPC and holds a
realtime subscription on the stock_levels table. -/
theorem read_surface_amended :
    (useInventoryReadSurfaces =
      [ReadSurface.view ("inventory_view"),
       ReadSurface.rpc ("get_latest_sync_timestamp"),
       ReadSurface.realtime ("stock_levels")]) ∧
    (∀ c ∈ ["current_stock", "physical_baseline", "tally_delta",
            "last_sync", "sync_source"], c ∈ inventoryViewColumns) ∧
    (∀ db : DB, (inventory_view db).Pairwise
      (fun a b => a.item_name ≤ b.item_name)) ∧
    (∀ (db : DB) (i : ItemRow) (s : StockRow),
      db.stocks.find? (fun x => x.item_id == some i.id) = some s →
      viewRowFor db i =
        { id := i.id, item_code := i.item_code, item_name := i.item_name,
          category := i.category, unit := i.unit,
          current_stock := s.current_stock,
          physical_baseline := s.physical_baseline,
          tally_delta := s.tally_delta,
          last_sync := s.last_sync, sync_source := s.sync_source }) ∧
    (∀ db : DB, (inventory_view db).Perm (db.items.map (viewRowFor db))) := by
  refine ⟨rfl, by decide, ?_, ?_, ?_⟩
  · intro db
    have hs := List.sorted_mergeSort viewOrder_trans viewOrder_total
      (db.items.map (viewRowFor db))
    refine (List.Pairwise.imp ?_ hs)
    intro a b hab
    simpa [viewOrder, decide_eq_true_eq] using hab
  · intro db i s hfind
    unfold viewRowFor
    rw [hfind]
  · intro db
    exact List.mergeSort_perm (db.items.map (viewRowFor db)) viewOrder

/-- Witness: the joined-columns part of the amended C3 theorem applied to
a one-item, one-stock-row store. -/
theorem read_surface_amended_witness :
    (({ items := [{ id := 0, item_code := "BRAKE001",
                    item_name := "Brake Pads Front", category := "Brakes",
                    unit := "Set", created_at := 1, updated_at := 1 }],
        stocks := [{ id := 1, item_id := some 0, current_stock := 25,
                     physical_baseline := 25, tally_delta := 0,
                     last_sync := 2, sync_source := "tally_sync" }],
        nextId := 2 } : DB).stocks.find?
        (fun x => x.item_id ==
          some ({ id := 0, item_code := "BRAKE001",
                  item_name := "Brake Pads Front", category := "Brakes",
                  unit := "Set", created_at := 1,
                  updated_at := 1 } : ItemRow).id) =
      some { id := 1, item_id := some 0, current_stock := 25,
             physical_baseline := 25, tally_delta := 0,
             last_sync := 2, sync_source := "tally_sync" }) ∧
    (viewRowFor
      ({ items := [{ id := 0, item_code := "BRAKE001",
                     item_name := "Brake Pads Front", category := "Brakes",
                     unit := "Set", created_at := 1, updated_at := 1 }],
         stocks := [{ id := 1, item_id := some 0, current_stock := 25,
                      physical_baseline := 25, tally_delta := 0,
                      last_sync := 2, sync_source := "tally_sync" }],
         nextId := 2 } : DB)
      { id := 0, item_code := "BRAKE001", item_name := "Brake Pads Front",
        category := "Brakes", unit := "Set", created_at := 1,
        updated_at := 1 } =
      { id := 0, item_code := "BRAKE001", item_name := "Brake Pads Front",
        category := "Brakes", unit := "Set", current_stock := 25,
        physical_baseline := 25, tally_delta := 0,
        last_sync := 2, sync_source := "tally_sync" }) :=
  ⟨by decide,
   read_surface_amended.2.2.2.1
     ({ items := [{ id := 0, item_code := "BRAKE001",
                    item_name := "Brake Pads Front", category := "Brakes",
                    unit := "Set", created_at := 1, updated_at := 1 }],
        stocks := [{ id := 1, item_id := some 0, current_stock := 25,
                     physical_baseline := 25, tally_delta := 0,
                     last_sync := 2, sync_source := "tally_sync" }],
        nextId := 2 } : DB)
     { id := 0, item_code := "BRAKE001", item_name := "Brake Pads Front",
       category := "Brakes", unit := "Set", created_at := 1,
       updated_at := 1 }
     { id := 1, item_id := some 0, current_stock := 25,
       physical_baseline := 25, tally_delta := 0,
       last_sync := 2, sync_source := "tally_sync" }
     (by decide)⟩

/-! ## C9: view rows for items without a stock_levels row -/

/-- C9: an item with no stock_levels row still appears in inventory_view,
with the COALESCE defaults: current_stock, physical_baseline and
tally_delta all 0, sync_source manual, and last_sync falling back to the
item's created_at. -/
theorem view_defaults_for_missing_stock (db : DB) (i : ItemRow)
    (hi : i ∈ db.items)
    (hno : ∀ s ∈ db.stocks, s.item_id ≠ some i.id) :
    ∃ r ∈ inventory_view db,
      r.id = i.id ∧ r.item_code = i.item_code ∧ r.item_name = i.item_name ∧
      r.current_stock = 0 ∧ r.physical_baseline = 0 ∧ r.tally_delta = 0 ∧
      r.sync_source = "manual" ∧ r.last_sync = i.created_at := by
  have hfind : db.stocks.find? (fun s => s.item_id == some i.id) = none := by
    rw [List.find?_eq_none]
    intro s hs
    simpa using hno s hs
  refine ⟨viewRowFor db i, ?_, ?_⟩
  · unfold inventory_view
    exact ((List.mergeSort_perm (db.items.map (viewRowFor db)) viewOrder).mem_iff).mpr
      (List.mem_map.mpr ⟨i, hi, rfl⟩)
  · unfold viewRowFor
    rw [hfind]
    exact ⟨rfl, rfl, rfl, rfl, rfl, rfl, rfl, rfl⟩

/-- Witness: C9 at a store holding one item and no stock rows. -/
theorem view_defaults_for_missing_stock_witness :
    (({ id := 3, item_code := "OIL001", item_name := "Engine Oil 5W30",
        category := "Lubricants", unit := "Liter", created_at := 7,
        updated_at := 7 } : ItemRow) ∈
      ({ items := [{ id := 3, item_code := "OIL001",
                     item_name := "Engine Oil 5W30",
                     category := "Lubricants", unit := "Liter",
                     created_at := 7, updated_at := 7 }],
         stocks := [], nextId := 4 } : DB).items) ∧
    (∃ r ∈ inventory_view
        ({ items := [{ id := 3, item_code := "OIL001",
                       item_name := "Engine Oil 5W30",
                       category := "Lubricants", unit := "Liter",
                       created_at := 7, updated_at := 7 }],
           stocks := [], nextId := 4 } : DB),
      r.id = 3 ∧ r.item_code = "OIL001" ∧ r.item_name = "Engine Oil 5W30" ∧
      r.current_stock = 0 ∧ r.physical_baseline = 0 ∧ r.tally_delta = 0 ∧
      r.sync_source = "manual" ∧ r.last_sync = 7) :=
  ⟨by decide,
   view_defaults_for_missing_stock
     ({ items := [{ id := 3, item_code := "OIL001",
                    item_name := "Engine Oil 5W30",
                    category := "Lubricants", unit := "Liter",
                    created_at := 7, updated_at := 7 }],
        stocks := [], nextId := 4 } : DB)
     { id := 3, item_code := "OIL001", item_name := "Engine Oil 5W30",
       category := "Lubricants", unit := "Liter", created_at := 7,
       updated_at := 7 }
     (by decide) (by decide)⟩

/-! ## C10: the latest-sync timestamp -/

lemma nat_max?_spec {l : List ℕ} {t : ℕ} (h : l.max? = some t) :
    t ∈ l ∧ ∀ b ∈ l, b ≤ t :=
  (List.max?_eq_some_iff (fun a => Nat.le_refl a) (fun a b => max_choice a b)
    (fun _ _ _ => max_le_iff)).mp h

lemma latest_none_iff (db : DB) :
    get_latest_sync_timestamp db = none ↔
      ∀ s ∈ db.stocks, s.sync_source ≠ "tally_sync" := by
  unfold get_latest_sync_timestamp
  rw [List.max?_eq_none_iff, List.map_eq_nil_iff, List.filter_eq_nil_iff]
  constructor
  · intro h s hs hsrc
    exact h s hs (by simp [hsrc])
  · intro h s hs hp
    exact h s hs (by simpa using hp)

/-- C10: the latest-sync timestamp is the maximum last_sync over only the
stock_levels rows whose sync_source is tally_sync: it is NULL exactly when
no such row exists, unaffected by rows with any other sync_source, bounds
exactly the tally_sync rows when non-NULL, and when NULL the app displays
the last sync as Never. -/
theorem latest_sync_filters_tally_source (db : DB) :
    (get_latest_sync_timestamp db = none ↔
      ∀ s ∈ db.stocks, s.sync_source ≠ "tally_sync") ∧
    (∀ s : StockRow, s.sync_source ≠ "tally_sync" →
      get_latest_sync_timestamp { db with stocks := s :: db.stocks }
        = get_latest_sync_timestamp db) ∧
    (∀ t : ℕ, get_latest_sync_timestamp db = some t →
      (∃ s ∈ db.stocks, s.sync_source = "tally_sync" ∧ s.last_sync = t) ∧
      (∀ s ∈ db.stocks, s.sync_source = "tally_sync" → s.last_sync ≤ t)) ∧
    ((∀ s ∈ db.stocks, s.sync_source ≠ "tally_sync") →
      ∀ now : ℤ, displayedLastSync now db = "Never") := by
  refine ⟨latest_none_iff db, ?_, ?_, ?_⟩
  · intro s hs
    unfold get_latest_sync_timestamp
    have hcons : (s :: db.stocks).filter (fun x => x.sync_source == "tally_sync")
        = db.stocks.filter (fun x => x.sync_source == "tally_sync") := by
      apply List.filter_cons_of_neg
      simpa using hs
    show (((s :: db.stocks).filter
        (fun x => x.sync_source == "tally_sync")).map StockRow.last_sync).max? = _
    rw [hcons]
  · intro t ht
    unfold get_latest_sync_timestamp at ht
    obtain ⟨hmem, hbound⟩ := nat_max?_spec ht
    constructor
    · obtain ⟨s, hs, hlast⟩ := List.mem_map.mp hmem
      obtain ⟨hs', hp⟩ := List.mem_filter.mp hs
      exact ⟨s, hs', by simpa using hp, hlast⟩
    · intro s hs hsrc
      refine hbound s.last_sync ?_
      exact List.mem_map.mpr
        ⟨s, List.mem_filter.mpr ⟨hs, by simp [hsrc]⟩, rfl⟩
  · intro hall now
    have hnone : get_latest_sync_timestamp db = none :=
      (latest_none_iff db).mpr hall
    unfold displayedLastSync useInventoryLastSync
    rw [hnone]
    rfl

/-- Witness: C10's Never branch at a store whose only stock row carries a
manual sync_source. -/
theorem latest_sync_filters_tally_source_witness :
    (∀ s : StockRow,
      s ∈ ({ items := [],
             stocks := [{ id := 1, item_id := some 0, current_stock := 5,
                          physical_baseline := 5, tally_delta := 0,
                          last_sync := 99, sync_source := "manual" }],
             nextId := 2 } : DB).stocks →
      s.sync_source ≠ "tally_sync") ∧
    displayedLastSync 0
      ({ items := [],
         stocks := [{ id := 1, item_id := some 0, current_stock := 5,
                      physical_baseline := 5, tally_delta := 0,
                      last_sync := 99, sync_source := "manual" }],
         nextId := 2 } : DB) = "Never" :=
  ⟨by decide,
   (latest_sync_filters_tally_source
      ({ items := [],
         stocks := [{ id := 1, item_id := some 0, current_stock := 5,
                      physical_baseline := 5, tally_delta := 0,
                      last_sync := 99, sync_source := "manual" }],
         nextId := 2 } : DB)).2.2.2 (by decide) 0⟩

/-! ## Publisher correctness lemmas -/

lemma updateItemRow_code (t : ℕ) (r : PubRecord) (j : ItemRow) :
    (updateItemRow t r j).item_code = j.item_code := by
  unfold updateItemRow
  split <;> rfl

lemma updateItemRow_id (t : ℕ) (r : PubRecord) (j : ItemRow) :
    (updateItemRow t r j).id = j.id := by
  unfold updateItemRow
  split <;> rfl

lemma updateItemRow_of_ne {t : ℕ} {r : PubRecord} {j : ItemRow}
    (h : j.item_code ≠ r.item_code) : updateItemRow t r j = j := by
  unfold updateItemRow
  rw [if_neg (by simpa using h)]

lemma updateStockRow_item_id (t iid : ℕ) (r : PubRecord) (s : StockRow) :
    (updateStockRow t iid r s).item_id = s.item_id := by
  unfold updateStockRow
  split <;> rfl

lemma updateStockRow_of_ne {t iid : ℕ} {r : PubRecord} {s : StockRow}
    (h : s.item_id ≠ some iid) : updateStockRow t iid r s = s := by
  unfold updateStockRow
  rw [if_neg (by simpa using h)]

/-- An items row carrying exactly the published attributes of a record,
stamped at the run time. -/
def itemPublished (db : DB) (t : ℕ) (r : PubRecord) (i : ItemRow) : Prop :=
  i ∈ db.items ∧ i.item_code = r.item_code ∧ i.item_name = r.item_name ∧
  i.category = r.category ∧ i.unit = r.unit ∧ i.updated_at = t

/-- A stock_levels row for the given owning item id carrying exactly the
published quantities, stamped at the run time with source tally_sync. -/
def stockPublished (db : DB) (t : ℕ) (r : PubRecord) (iid : ℕ) : Prop :=
  ∃ s ∈ db.stocks, s.item_id = some iid ∧
    s.current_stock = r.current_stock ∧
    s.physical_baseline = r.physical_baseline ∧
    s.tally_delta = r.tally_delta ∧
    s.last_sync = t ∧ s.sync_source = "tally_sync"

/-- A record is published: some item row owns its code with its attributes
and a stock row references that item with its quantities. -/
def published (db : DB) (t : ℕ) (r : PubRecord) : Prop :=
  ∃ i : ItemRow, itemPublished db t r i ∧ stockPublished db t r i.id

lemma refOk_item_id {items : List ItemRow} {s s' : StockRow}
    (h : s'.item_id = s.item_id) : refOk items s' = refOk items s := by
  unfold refOk
  rw [h]

lemma refOk_append {items l2 : List ItemRow} {s : StockRow}
    (h : refOk items s = true) : refOk (items ++ l2) s = true := by
  cases hid : s.item_id with
  | none => simp only [refOk, hid]
  | some iid =>
      simp only [refOk, hid] at h ⊢
      simp only [List.any_append, h, Bool.true_or]

lemma refOk_map_update {t : ℕ} {r : PubRecord} {items : List ItemRow}
    {s : StockRow} (h : refOk items s = true) :
    refOk (items.map (updateItemRow t r)) s = true := by
  cases hid : s.item_id with
  | none => simp only [refOk, hid]
  | some iid =>
      simp only [refOk, hid] at h ⊢
      rw [List.any_map]
      have : ((fun i : ItemRow => i.id == iid) ∘ updateItemRow t r)
          = fun i : ItemRow => i.id == iid := by
        funext j
        simp [Function.comp, updateItemRow_id]
      rw [this]
      exact h

lemma upsertItem_stocks (t : ℕ) (db : DB) (r : PubRecord) :
    ((upsertItem t db r).1).stocks = db.stocks := by
  unfold upsertItem
  split <;> rfl

lemma upsertItem_wf {t : ℕ} {db : DB} {r : PubRecord} (hwf : wf db) :
    wf ((upsertItem t db r).1) := by
  obtain ⟨h1, h2, h3, h4, h5⟩ := hwf
  unfold upsertItem
  split
  case h_1 i hfind =>
    refine ⟨?_, ?_, h3, ?_, ?_⟩
    · rw [List.map_map]
      have : (ItemRow.item_code ∘ updateItemRow t r) = ItemRow.item_code := by
        funext j
        exact updateItemRow_code t r j
      rw [this]
      exact h1
    · rw [List.map_map]
      have : (ItemRow.id ∘ updateItemRow t r) = ItemRow.id := by
        funext j
        exact updateItemRow_id t r j
      rw [this]
      exact h2
    · intro s hs
      exact refOk_map_update (h4 s hs)
    · intro i' hi'
      obtain ⟨j, hj, rfl⟩ := List.mem_map.mp hi'
      rw [updateItemRow_id]
      exact h5 j hj
  case h_2 hfind =>
    have hnotin : r.item_code ∉ db.items.map ItemRow.item_code := by
      intro hmem
      obtain ⟨j, hj, hcode⟩ := List.mem_map.mp hmem
      have := List.find?_eq_none.mp hfind j hj
      simp [hcode] at this
    refine ⟨?_, ?_, h3, ?_, ?_⟩
    · rw [List.map_append]
      rw [List.nodup_append]
      refine ⟨h1, by simp, ?_⟩
      intro c hc
      simp only [List.map_cons, List.map_nil, List.mem_singleton]
      intro hceq
      subst hceq
      exact hnotin hc
    · rw [List.map_append]
      rw [List.nodup_append]
      refine ⟨h2, by simp, ?_⟩
      intro v hv
      simp only [List.map_cons, List.map_nil, List.mem_singleton]
      intro hveq
      subst hveq
      obtain ⟨j, hj, hid⟩ := List.mem_map.mp hv
      exact absurd hid (Nat.ne_of_lt (h5 j hj))
    · intro s hs
      exact refOk_append (h4 s hs)
    · intro i' hi'
      rcases List.mem_append.mp hi' with hi' | hi'
      · exact Nat.lt_succ_of_lt (h5 i' hi')
      · have : i' = { id := db.nextId, item_code := r.item_code,
                      item_name := r.item_name, category := r.category,
                      unit := r.unit, created_at := t, updated_at := t } := by
          simpa using hi'
        subst this
        exact Nat.lt_succ_self _

lemma upsertItem_owner (t : ℕ) (db : DB) (r : PubRecord) :
    ∃ i ∈ ((upsertItem t db r).1).items,
      i.id = (upsertItem t db r).2 ∧ i.item_code = r.item_code ∧
      i.item_name = r.item_name ∧ i.category = r.category ∧
      i.unit = r.unit ∧ i.updated_at = t := by
  unfold upsertItem
  split
  case h_1 i hfind =>
    have hi : i ∈ db.items := List.mem_of_find?_eq_some hfind
    have hicode : i.item_code = r.item_code := by
      simpa using List.find?_some hfind
    refine ⟨updateItemRow t r i, List.mem_map.mpr ⟨i, hi, rfl⟩, ?_⟩
    unfold updateItemRow
    rw [if_pos (by simpa using hicode)]
    exact ⟨rfl, hicode, rfl, rfl, rfl, rfl⟩
  case h_2 hfind =>
    refine ⟨{ id := db.nextId, item_code := r.item_code,
              item_name := r.item_name, category := r.category,
              unit := r.unit, created_at := t, updated_at := t }, ?_,
            rfl, rfl, rfl, rfl, rfl, rfl⟩
    simp

lemma upsertItem_keeps {t : ℕ} {db : DB} {r : PubRecord} {j : ItemRow}
    (hj : j ∈ db.items) (hne : j.item_code ≠ r.item_code) :
    j ∈ ((upsertItem t db r).1).items := by
  unfold upsertItem
  split
  case h_1 i hfind =>
    have : updateItemRow t r j = j := updateItemRow_of_ne hne
    exact List.mem_map.mpr ⟨j, hj, this⟩
  case h_2 hfind =>
    exact List.mem_append.mpr (Or.inl hj)

lemma upsertItem_fresh {t : ℕ} {db : DB} {r : PubRecord} {j : ItemRow}
    (hwf : wf db) (hj : j ∈ db.items) (hne : j.item_code ≠ r.item_code) :
    j.id ≠ (upsertItem t db r).2 := by
  unfold upsertItem
  split
  case h_1 i hfind =>
    have hi : i ∈ db.items := List.mem_of_find?_eq_some hfind
    have hicode : i.item_code = r.item_code := by
      simpa using List.find?_some hfind
    intro hid
    have : j = i := List.inj_on_of_nodup_map hwf.2.1 hj hi hid
    subst this
    exact hne hicode
  case h_2 hfind =>
    exact Nat.ne_of_lt (hwf.2.2.2.2 j hj)

lemma upsertStock_items (t iid : ℕ) (r : PubRecord) (db : DB) :
    (upsertStock t iid r db).items = db.items := by
  unfold upsertStock
  split <;> rfl

lemma upsertStock_wf {t iid : ℕ} {r : PubRecord} {db : DB} (hwf : wf db)
    (howner : ∃ i ∈ db.items, i.id = iid) : wf (upsertStock t iid r db) := by
  obtain ⟨h1, h2, h3, h4, h5⟩ := hwf
  unfold upsertStock
  split
  case h_1 s0 hfind =>
    refine ⟨h1, h2, ?_, ?_, h5⟩
    · rw [List.filterMap_map]
      have : (StockRow.item_id ∘ updateStockRow t iid r) = StockRow.item_id := by
        funext x
        exact updateStockRow_item_id t iid r x
      rw [this]
      exact h3
    · intro s hs
      obtain ⟨x, hx, rfl⟩ := List.mem_map.mp hs
      rw [refOk_item_id (updateStockRow_item_id t iid r x)]
      exact h4 x hx
  case h_2 hfind =>
    have hnotin : iid ∉ db.stocks.filterMap StockRow.item_id := by
      intro hmem
      obtain ⟨x, hx, hxid⟩ := List.mem_filterMap.mp hmem
      have := List.find?_eq_none.mp hfind x hx
      simp [hxid] at this
    refine ⟨h1, h2, ?_, ?_, ?_⟩
    · rw [List.filterMap_append]
      rw [List.nodup_append]
      refine ⟨h3, by simp, ?_⟩
      intro v hv
      simp only [List.filterMap_cons, List.filterMap_nil, List.mem_singleton]
      intro hveq
      subst hveq
      exact hnotin hv
    · intro s hs
      rcases List.mem_append.mp hs with hs | hs
      · exact h4 s hs
      · have hseq : s = { id := db.nextId, item_id := some iid,
                          current_stock := r.current_stock,
                          physical_baseline := r.physical_baseline,
                          tally_delta := r.tally_delta,
                          last_sync := t, sync_source := "tally_sync" } := by
          simpa using hs
        subst hseq
        obtain ⟨i, hi, hid⟩ := howner
        simp only [refOk]
        exact List.any_eq_true.mpr ⟨i, hi, by simp [hid]⟩
    · intro i hi
      exact Nat.lt_succ_of_lt (h5 i hi)

lemma upsertStock_gives (t iid : ℕ) (r : PubRecord) (db : DB) :
    stockPublished (upsertStock t iid r db) t r iid := by
  unfold upsertStock
  split
  case h_1 s0 hfind =>
    have hs0 : s0 ∈ db.stocks := List.mem_of_find?_eq_some hfind
    have hs0id : s0.item_id = some iid := by
      simpa using List.find?_some hfind
    refine ⟨updateStockRow t iid r s0, List.mem_map.mpr ⟨s0, hs0, rfl⟩, ?_⟩
    unfold updateStockRow
    rw [if_pos (by simpa using hs0id)]
    exact ⟨hs0id, rfl, rfl, rfl, rfl, rfl⟩
  case h_2 hfind =>
    refine ⟨{ id := db.nextId, item_id := some iid,
              current_stock := r.current_stock,
              physical_baseline := r.physical_baseline,
              tally_delta := r.tally_delta,
              last_sync := t, sync_source := "tally_sync" }, ?_,
            rfl, rfl, rfl, rfl, rfl, rfl⟩
    simp

lemma upsertStock_keeps {t iid : ℕ} {r : PubRecord} {db : DB} {s : StockRow}
    (hs : s ∈ db.stocks) (hne : s.item_id ≠ some iid) :
    s ∈ (upsertStock t iid r db).stocks := by
  unfold upsertStock
  split
  case h_1 s0 hfind =>
    exact List.mem_map.mpr ⟨s, hs, updateStockRow_of_ne hne⟩
  case h_2 hfind =>
    exact List.mem_append.mpr (Or.inl hs)

lemma publishOne_wf {t : ℕ} {db : DB} {r : PubRecord} (hwf : wf db) :
    wf (publishOne t db r) := by
  unfold publishOne
  apply upsertStock_wf (upsertItem_wf hwf)
  obtain ⟨i, hi, hid, _⟩ := upsertItem_owner t db r
  exact ⟨i, hi, hid⟩

lemma publishOne_published (t : ℕ) (db : DB) (r : PubRecord) :
    published (publishOne t db r) t r := by
  obtain ⟨i, hi, hid, hcode, hname, hcat, hunit, hupd⟩ := upsertItem_owner t db r
  refine ⟨i, ⟨?_, hcode, hname, hcat, hunit, hupd⟩, ?_⟩
  · unfold publishOne
    rw [upsertStock_items]
    exact hi
  · unfold publishOne
    rw [hid]
    exact upsertStock_gives t ((upsertItem t db r).2) r ((upsertItem t db r).1)

lemma publishOne_preserves {t : ℕ} {db : DB} {c r : PubRecord} (hwf : wf db)
    (hpub : published db t r) (hne : c.item_code ≠ r.item_code) :
    published (publishOne t db c) t r := by
  obtain ⟨i, ⟨hi, hicode, hiname, hicat, hiunit, hiupd⟩,
          s, hs, hsid, hsc, hsp, hst, hsl, hss⟩ := hpub
  have hne' : i.item_code ≠ c.item_code := by
    rw [hicode]
    exact fun h => hne h.symm
  have hikeep : i ∈ ((upsertItem t db c).1).items := upsertItem_keeps hi hne'
  have hfresh : i.id ≠ (upsertItem t db c).2 := upsertItem_fresh hwf hi hne'
  refine ⟨i, ⟨?_, hicode, hiname, hicat, hiunit, hiupd⟩, ?_⟩
  · unfold publishOne
    rw [upsertStock_items]
    exact hikeep
  · have hs1 : s ∈ ((upsertItem t db c).1).stocks := by
      rw [upsertItem_stocks]
      exact hs
    have hsne : s.item_id ≠ some ((upsertItem t db c).2) := by
      rw [hsid]
      intro h
      exact hfresh (Option.some.inj h)
    exact ⟨s, upsertStock_keeps hs1 hsne, hsid, hsc, hsp, hst, hsl, hss⟩

lemma publishAll_wf {t : ℕ} {recs : List PubRecord} {db : DB} (hwf : wf db) :
    wf (publishAll t recs db) := by
  induction recs generalizing db with
  | nil => exact hwf
  | cons r rest ih => exact ih (publishOne_wf hwf)

lemma publishAll_preserves {t : ℕ} {recs : List PubRecord} {db : DB}
    {r : PubRecord} (hwf : wf db) (hpub : published db t r)
    (hne : ∀ c ∈ recs, c.item_code ≠ r.item_code) :
    published (publishAll t recs db) t r := by
  induction recs generalizing db with
  | nil => exact hpub
  | cons c rest ih =>
      exact ih (publishOne_wf hwf)
        (publishOne_preserves hwf hpub (hne c (by simp)))
        (fun x hx => hne x (by simp [hx]))

lemma publishAll_published {t : ℕ} {recs : List PubRecord} {db : DB}
    (hwf : wf db) (hnd : (recs.map PubRecord.item_code).Nodup) :
    ∀ r ∈ recs, published (publishAll t recs db) t r := by
  induction recs generalizing db with
  | nil =>
      intro r hr
      cases hr
  | cons c rest ih =>
      intro r hr
      rw [List.map_cons, List.nodup_cons] at hnd
      rcases List.mem_cons.mp hr with rfl | hr'
      · show published (publishAll t rest (publishOne t db r)) t r
        refine publishAll_preserves (publishOne_wf hwf)
          (publishOne_published t db r) ?_
        intro x hx hcontra
        exact hnd.1 (List.mem_map.mpr ⟨x, hx, hcontra⟩)
      · show published (publishAll t rest (publishOne t db c)) t r
        exact ih (publishOne_wf hwf) hnd.2 r hr'

lemma publishOne_id {t : ℕ} {db : DB} {r : PubRecord} (hwf : wf db)
    (hpub : published db t r) : publishOne t db r = db := by
  obtain ⟨i, ⟨hi, hicode, hiname, hicat, hiunit, hiupd⟩,
          s, hs, hsid, hsc, hsp, hst, hsl, hss⟩ := hpub
  have hfind : db.items.find? (fun j => j.item_code == r.item_code) = some i := by
    apply find?_eq_some_of_unique hi (by simp [hicode])
    intro x hx hpx
    have hxcode : x.item_code = r.item_code := by simpa using hpx
    exact List.inj_on_of_nodup_map hwf.1 hx hi (by rw [hxcode, hicode])
  have hmap : db.items.map (updateItemRow t r) = db.items := by
    apply map_eq_self_of
    intro j hj
    by_cases hc : j.item_code = r.item_code
    · have hji : j = i := List.inj_on_of_nodup_map hwf.1 hj hi (by rw [hc, hicode])
      subst hji
      unfold updateItemRow
      rw [if_pos (by simpa using hc)]
      rw [← hiname, ← hicat, ← hiunit, ← hiupd]
    · exact updateItemRow_of_ne hc
  have hstep1 : upsertItem t db r = (db, i.id) := by
    unfold upsertItem
    rw [hfind, hmap]
  have hsfind : db.stocks.find? (fun x => x.item_id == some i.id) = some s := by
    apply find?_eq_some_of_unique hs (by simp [hsid])
    intro x hx hpx
    have hxid : x.item_id = some i.id := by simpa using hpx
    exact nodup_filterMap_unique hwf.2.2.1 hx hs hxid hsid
  have hsmap : db.stocks.map (updateStockRow t i.id r) = db.stocks := by
    apply map_eq_self_of
    intro x hx
    by_cases hc : x.item_id = some i.id
    · have hxs : x = s := nodup_filterMap_unique hwf.2.2.1 hx hs hc hsid
      subst hxs
      unfold updateStockRow
      rw [if_pos (by simpa using hc)]
      rw [← hsc, ← hsp, ← hst, ← hsl, ← hss]
    · exact updateStockRow_of_ne hc
  unfold publishOne
  rw [hstep1]
  show upsertStock t i.id r db = db
  unfold upsertStock
  rw [hsfind, hsmap]

lemma publishAll_id {t : ℕ} {recs : List PubRecord} {db : DB} (hwf : wf db)
    (hpub : ∀ r ∈ recs, published db t r) :
    publishAll t recs db = db := by
  induction recs with
  | nil => rfl
  | cons c rest ih =>
      have h1 : publishOne t db c = db := publishOne_id hwf (hpub c (by simp))
      show publishAll t rest (publishOne t db c) = db
      rw [h1]
      exact ih (fun r hr => hpub r (by simp [hr]))

lemma computeCleanSlate_codes_nodup (attrs : List (String × ItemAttrs))
    (baseline deltas : List (String × ℤ)) :
    ((computeCleanSlate attrs baseline deltas).map PubRecord.item_code).Nodup := by
  unfold computeCleanSlate
  rw [List.map_map]
  have hfun : (PubRecord.item_code ∘ cleanSlateRecord attrs baseline deltas) = id := by
    funext c
    rfl
  rw [hfun, List.map_id]
  exact List.nodup_dedup _

/-! ## C1: the clean-slate invariant of every published stock level -/

/-- C1: at the end of every successful run (the computed records published
over a well-formed store), every item present in the baseline or any
source has a published stock level satisfying
current_stock = physical_baseline + tally_delta exactly. -/
theorem clean_slate_invariant_after_publish (t : ℕ) (db : DB)
    (attrs : List (String × ItemAttrs)) (baseline deltas : List (String × ℤ))
    (hwf : wf db) :
    ∀ code : String,
      code ∈ attrs.map Prod.fst ∨ code ∈ baseline.map Prod.fst ∨
        code ∈ deltas.map Prod.fst →
      ∃ i ∈ (publishAll t (computeCleanSlate attrs baseline deltas) db).items,
        i.item_code = code ∧
        ∃ s ∈ (publishAll t (computeCleanSlate attrs baseline deltas) db).stocks,
          s.item_id = some i.id ∧
          s.current_stock = s.physical_baseline + s.tally_delta := by
  intro code hcode
  have hmemd : code ∈
      (attrs.map Prod.fst ++ baseline.map Prod.fst ++ deltas.map Prod.fst).dedup := by
    rw [List.mem_dedup, List.mem_append, List.mem_append]
    tauto
  have hrec : cleanSlateRecord attrs baseline deltas code ∈
      computeCleanSlate attrs baseline deltas :=
    List.mem_map.mpr ⟨code, hmemd, rfl⟩
  obtain ⟨i, ⟨hi, hicode, _, _, _, _⟩, s, hs, hsid, hsc, hsp, hst, _, _⟩ :=
    publishAll_published hwf (computeCleanSlate_codes_nodup attrs baseline deltas)
      _ hrec
  refine ⟨i, hi, ?_, s, hs, hsid, ?_⟩
  · rw [hicode]
    rfl
  · rw [hsc, hsp, hst]
    rfl

/-- Witness: C1 run end to end on the spec's own example, baseline
BRAKE001 at 50 with aggregated delta −3, published into an empty store. -/
theorem clean_slate_invariant_after_publish_witness :
    wf { items := [], stocks := [], nextId := 0 } ∧
    ∃ i ∈ (publishAll 1
        (computeCleanSlate [] [("BRAKE001", 50)] [("BRAKE001", -3)])
        { items := [], stocks := [], nextId := 0 }).items,
      i.item_code = "BRAKE001" ∧
      ∃ s ∈ (publishAll 1
          (computeCleanSlate [] [("BRAKE001", 50)] [("BRAKE001", -3)])
          { items := [], stocks := [], nextId := 0 }).stocks,
        s.item_id = some i.id ∧
        s.current_stock = s.physical_baseline + s.tally_delta :=
  ⟨by decide,
   clean_slate_invariant_after_publish 1 { items := [], stocks := [], nextId := 0 }
     [] [("BRAKE001", 50)] [("BRAKE001", -3)] (by decide) "BRAKE001"
     (by decide)⟩

/-! ## C7: idempotence of publishing -/

/-- C7: re-publishing the same computed stock levels over the already
published store yields the identical stored state, and the published store
keeps exactly one items row per item_code and at most one stock_levels row
per item (unique non-null item_id). -/
theorem publish_idempotent (t : ℕ) (db : DB) (recs : List PubRecord)
    (hwf : wf db) (hnd : (recs.map PubRecord.item_code).Nodup) :
    publishAll t recs (publishAll t recs db) = publishAll t recs db ∧
    ((publishAll t recs db).items.map ItemRow.item_code).Nodup ∧
    ((publishAll t recs db).stocks.filterMap StockRow.item_id).Nodup := by
  have hwf2 : wf (publishAll t recs db) := publishAll_wf hwf
  refine ⟨?_, hwf2.1, hwf2.2.2.1⟩
  exact publishAll_id hwf2 (publishAll_published hwf hnd)

/-- Witness: C7 on one concrete computed record published twice into an
empty store. -/
theorem publish_idempotent_witness :
    wf { items := [], stocks := [], nextId := 0 } ∧
    (([({ item_code := "BRAKE001", item_name := "Brake Pads Front",
          category := "Brakes", unit := "Set", current_stock := 47,
          physical_baseline := 50, tally_delta := -3 } : PubRecord)].map
        PubRecord.item_code).Nodup) ∧
    publishAll 1
        [({ item_code := "BRAKE001", item_name := "Brake Pads Front",
            category := "Brakes", unit := "Set", current_stock := 47,
            physical_baseline := 50, tally_delta := -3 } : PubRecord)]
        (publishAll 1
          [({ item_code := "BRAKE001", item_name := "Brake Pads Front",
              category := "Brakes", unit := "Set", current_stock := 47,
              physical_baseline := 50, tally_delta := -3 } : PubRecord)]
          { items := [], stocks := [], nextId := 0 })
      = publishAll 1
          [({ item_code := "BRAKE001", item_name := "Brake Pads Front",
              category := "Brakes", unit := "Set", current_stock := 47,
              physical_baseline := 50, tally_delta := -3 } : PubRecord)]
          { items := [], stocks := [], nextId := 0 } :=
  ⟨by decide, by decide,
   (publish_idempotent 1 { items := [], stocks := [], nextId := 0 }
      [({ item_code := "BRAKE001", item_name := "Brake Pads Front",
          category := "Brakes", unit := "Set", current_stock := 47,
          physical_baseline := 50, tally_delta := -3 } : PubRecord)]
      (by decide) (by decide)).1⟩

/-! ## C6: the one-to-one Item / StockLevel relationship -/

lemma stock_filter_length_le_one {l : List StockRow}
    (h : (l.filterMap StockRow.item_id).Nodup) (iid : ℕ) :
    (l.filter (fun s => s.item_id == some iid)).length ≤ 1 := by
  induction l with
  | nil => simp
  | cons a l ih =>
      by_cases ha : (a.item_id == some iid) = true
      · rw [@List.filter_cons_of_pos _ (fun s => s.item_id == some iid) a l ha]
        have haid : a.item_id = some iid := by simpa using ha
        have h1 : l.filter (fun s => s.item_id == some iid) = [] := by
          rw [List.filter_eq_nil_iff]
          intro x hx hxp
          have hxid : x.item_id = some iid := by simpa using hxp
          have hmem : iid ∈ l.filterMap StockRow.item_id :=
            List.mem_filterMap.mpr ⟨x, hx, hxid⟩
          simp only [List.filterMap_cons, haid] at h
          exact (List.nodup_cons.mp h).1 hmem
        rw [h1]
        simp
      · rw [@List.filter_cons_of_neg _ (fun s => s.item_id == some iid) a l ha]
        refine ih ?_
        cases haid : a.item_id with
        | none => simpa only [List.filterMap_cons, haid] using h
        | some w =>
            simp only [List.filterMap_cons, haid] at h
            exact (List.nodup_cons.mp h).2

lemma refOk_spec {items : List ItemRow} {s : StockRow} {j : ℕ}
    (h : refOk items s = true) (hj : s.item_id = some j) :
    ∃ i ∈ items, i.id = j := by
  simp only [refOk, hj] at h
  obtain ⟨i, hi, hid⟩ := List.any_eq_true.mp h
  exact ⟨i, hi, by simpa using hid⟩

/-- C6: Item and StockLevel stand in 1-to-1 correspondence: at most one
stock_levels row per item (UNIQUE item_id), every stock row created or
kept by the publisher references an existing owning item (FOREIGN KEY),
and removing an item removes exactly its stock rows (ON DELETE CASCADE)
while keeping all others. -/
theorem item_stock_one_to_one (db : DB) (t : ℕ) (recs : List PubRecord)
    (iid : ℕ) (hwf : wf db) :
    ((db.stocks.filter (fun s => s.item_id == some iid)).length ≤ 1) ∧
    (∀ s ∈ (publishAll t recs db).stocks, ∀ j : ℕ, s.item_id = some j →
      ∃ i ∈ (publishAll t recs db).items, i.id = j) ∧
    (∀ s ∈ (deleteItemCascade db iid).stocks, s.item_id ≠ some iid) ∧
    (∀ i ∈ (deleteItemCascade db iid).items, i.id ≠ iid) ∧
    (∀ s ∈ db.stocks, s.item_id ≠ some iid →
      s ∈ (deleteItemCascade db iid).stocks) := by
  have hwf2 : wf (publishAll t recs db) := publishAll_wf hwf
  refine ⟨stock_filter_length_le_one hwf.2.2.1 iid, ?_, ?_, ?_, ?_⟩
  · intro s hs j hj
    exact refOk_spec (hwf2.2.2.2.1 s hs) hj
  · intro s hs
    have hp := (List.mem_filter.mp hs).2
    simpa using hp
  · intro i hi
    have hp := (List.mem_filter.mp hi).2
    simpa using hp
  · intro s hs hne
    exact List.mem_filter.mpr ⟨hs, by simpa using hne⟩

/-- Witness: the uniqueness part of C6 at a concrete one-item store. -/
theorem item_stock_one_to_one_witness :
    wf { items := [{ id := 0, item_code := "BRAKE001",
                     item_name := "Brake Pads Front", category := "Brakes",
                     unit := "Set", created_at := 1, updated_at := 1 }],
         stocks := [{ id := 1, item_id := some 0, current_stock := 25,
                      physical_baseline := 25, tally_delta := 0,
                      last_sync := 2, sync_source := "tally_sync" }],
         nextId := 2 } ∧
    (({ items := [{ id := 0, item_code := "BRAKE001",
                    item_name := "Brake Pads Front", category := "Brakes",
                    unit := "Set", created_at := 1, updated_at := 1 }],
        stocks := [{ id := 1, item_id := some 0, current_stock := 25,
                     physical_baseline := 25, tally_delta := 0,
                     last_sync := 2, sync_source := "tally_sync" }],
        nextId := 2 } : DB).stocks.filter
      (fun s => s.item_id == some 0)).length ≤ 1 :=
  ⟨by decide,
   (item_stock_one_to_one
      { items := [{ id := 0, item_code := "BRAKE001",
                    item_name := "Brake Pads Front", category := "Brakes",
                    unit := "Set", created_at := 1, updated_at := 1 }],
        stocks := [{ id := 1, item_id := some 0, current_stock := 25,
                     physical_baseline := 25, tally_delta := 0,
                     last_sync := 2, sync_source := "tally_sync" }],
        nextId := 2 } 1 [] 0 (by decide)).1⟩
